import Mathlib

/-!
Verification of the order-status materialization pipeline of the
`elt_warehousing` repository.

Part 1 embeds the SQL MERGE reducer of `src/setup_database.py`
(`run_merge`, lines 51-74; the identical statement is scheduled in
`src/setup_automation.py`, `setup_task`, lines 49-70):

  MERGE INTO ORDER_STATUS AS T
  USING (SELECT ... ROW_NUMBER() OVER (PARTITION BY ORDER_ID
                                       ORDER BY STATUS_TS DESC) AS RN
         ... WHERE RN = 1) AS S
  ON T.ORDER_ID = S.ORDER_ID
  WHEN MATCHED
    AND (S.LAST_EVENT_TS > T.LAST_UPDATE_TS OR T.LAST_UPDATE_TS IS NULL)
    AND (T.CURRENT_STATUS <> S.NEW_STATUS OR T.CURRENT_STATUS IS NULL)
  THEN UPDATE SET T.PREVIOUS_STATUS = T.CURRENT_STATUS,
                  T.CURRENT_STATUS  = S.NEW_STATUS,
                  T.LAST_UPDATE_TS  = S.LAST_EVENT_TS,
                  T.CUSTOMER_ID     = S.CUSTOMER_ID
  WHEN NOT MATCHED THEN
    INSERT (ORDER_ID, CUSTOMER_ID, PREVIOUS_STATUS, CURRENT_STATUS, LAST_UPDATE_TS)
    VALUES (S.ORDER_ID, S.CUSTOMER_ID, NULL, S.NEW_STATUS, S.LAST_EVENT_TS)

Timestamps are modelled as integers, statuses and event ids as strings,
SQL NULL columns as `Option`.  The event window (the `EVENTS` table as
presented to the window function) is a list of `EventRecord`s; a physical
row order is part of the presentation, since `ROW_NUMBER` with an
`ORDER BY` that does not totally order the rows depends on it.
-/

/-- EventRecord: one row of RETAIL.RAW.EVENTS as produced by
`event_producer.py` (event_id, order_id, customer_id, new_status,
status_ts, source).  The `source` tag plays no role in the merge and is
omitted; `event_id` is kept because tie-break claims mention it. -/
structure EventRecord where
  event_id : String
  order_id : Int
  customer_id : Int
  new_status : String
  status_ts : Int
  deriving DecidableEq, Repr

/-- OrderStatusState: one row of RETAIL.DWH.ORDER_STATUS.
PREVIOUS_STATUS is nullable by design; CURRENT_STATUS and LAST_UPDATE_TS
are nullable in the DDL (no NOT NULL constraint) and the merge guards
handle their NULL cases explicitly, so they are `Option` here too. -/
structure OrderStatusRow where
  order_id : Int
  customer_id : Int
  previous_status : Option String
  current_status : Option String
  last_update_ts : Option Int
  deriving DecidableEq, Repr

/-- Store: the ORDER_STATUS table, at most one row per ORDER_ID
(ORDER_ID is the primary key), modelled as a map from order id to an
optional row. -/
def Store : Type := Int → Option OrderStatusRow

/-- tsNewer models the first merge guard
`S.LAST_EVENT_TS > T.LAST_UPDATE_TS OR T.LAST_UPDATE_TS IS NULL`:
true when the stored timestamp is NULL, otherwise a strict comparison. -/
def tsNewer (stored : Option Int) (ts : Int) : Bool :=
  match stored with
  | none => true
  | some l => decide (l < ts)

/-- statusDiffers models the second merge guard
`T.CURRENT_STATUS <> S.NEW_STATUS OR T.CURRENT_STATUS IS NULL`:
true when the stored status is NULL, otherwise inequality. -/
def statusDiffers (stored : Option String) (s : String) : Bool :=
  match stored with
  | none => true
  | some c => decide (c ≠ s)

/-- mergeOne is the per-row action of the MERGE for one source event `e`
against the (possibly absent) target row of the same ORDER_ID:
WHEN NOT MATCHED inserts `(S.ORDER_ID, S.CUSTOMER_ID, NULL, S.NEW_STATUS,
S.LAST_EVENT_TS)`; WHEN MATCHED updates only when both guards hold,
otherwise leaves the row untouched. -/
def mergeOne (t : Option OrderStatusRow) (e : EventRecord) : Option OrderStatusRow :=
  match t with
  | none =>
      some { order_id := e.order_id, customer_id := e.customer_id,
             previous_status := none, current_status := some e.new_status,
             last_update_ts := some e.status_ts }
  | some r =>
      if tsNewer r.last_update_ts e.status_ts && statusDiffers r.current_status e.new_status then
        some { r with previous_status := r.current_status,
                      current_status := some e.new_status,
                      last_update_ts := some e.status_ts,
                      customer_id := e.customer_id }
      else
        some r

/-- selectLatest is the dedup-to-latest subquery
(`ROW_NUMBER() OVER (PARTITION BY ORDER_ID ORDER BY STATUS_TS DESC)`,
`WHERE RN = 1`) for one order id over one presentation of the window: it
returns the first row, in presentation order, whose STATUS_TS is
maximal among the rows of that order (later rows win only by a strictly
greater timestamp, which is one resolution of the tie nondeterminism the
window function leaves open).  `selStep` is its per-row accumulator:
ignore rows of other orders, keep the incumbent unless the new row's
timestamp is strictly greater. -/
def selStep (oid : Int) (acc : Option EventRecord) (e : EventRecord) : Option EventRecord :=
  if e.order_id = oid then
    match acc with
    | none => some e
    | some a => if a.status_ts < e.status_ts then some e else some a
  else acc

/-- selectLatest runs the dedup accumulator over the whole window. -/
def selectLatest (W : List EventRecord) (oid : Int) : Option EventRecord :=
  W.foldl (selStep oid) none

/-- isLatestCandidate says that event `e` is a row the window-function
dedup step is permitted to select for order `oid`: it belongs to the
window, has that order id, and no event of the same order has a strictly
greater STATUS_TS.  On timestamp ties several events satisfy this at
once, and `ROW_NUMBER` with the code's ORDER BY may return any of them. -/
def isLatestCandidate (W : List EventRecord) (oid : Int) (e : EventRecord) : Prop :=
  e ∈ W ∧ e.order_id = oid ∧ ∀ e2 ∈ W, e2.order_id = oid → e2.status_ts ≤ e.status_ts

instance (W : List EventRecord) (oid : Int) (e : EventRecord) :
    Decidable (isLatestCandidate W oid e) := by
  unfold isLatestCandidate; infer_instance

/-- runPass is one full reducer pass: dedup the window to the latest
event per order id, then conditionally merge each selected event into
its ORDER_STATUS row.  Orders with no event in the window keep their
row; orders with no row get the insert branch. -/
def runPass (W : List EventRecord) (st : Store) : Store :=
  fun oid =>
    match selectLatest W oid with
    | none => st oid
    | some e => mergeOne (st oid) e

/-- runPasses folds a sequence of reducer passes, one per window, over a
starting store (the scheduled task of setup_automation.py firing
repeatedly). -/
def runPasses : List (List EventRecord) → Store → Store
  | [], st => st
  | W :: Ws, st => runPasses Ws (runPass W st)

/-!
Part 2 embeds the partition router of `src/etl_project/src/partitioner.py`.
Keys are byte strings (lists of naturals below 256); decoded text is a
list of Unicode code points.
-/

/-- utf8Decode models Python `bytes.decode("utf-8")` in its default
strict mode, returning the decoded code points, or `none` on any invalid
input (stray or missing continuation byte, overlong encoding, surrogate,
code point above U+10FFFF, or truncated sequence). -/
def utf8Decode : List Nat → Option (List Nat)
  | [] => some []
  | b :: rest =>
    if b < 0x80 then
      (utf8Decode rest).map (fun t => b :: t)
    else if 0xC2 ≤ b ∧ b ≤ 0xDF then
      match rest with
      | c1 :: rest2 =>
        if 0x80 ≤ c1 ∧ c1 ≤ 0xBF then
          (utf8Decode rest2).map (fun t => ((b - 0xC0) * 0x40 + (c1 - 0x80)) :: t)
        else none
      | [] => none
    else if 0xE0 ≤ b ∧ b ≤ 0xEF then
      match rest with
      | c1 :: c2 :: rest2 =>
        if ((if b = 0xE0 then 0xA0 else 0x80) ≤ c1 ∧ c1 ≤ (if b = 0xED then 0x9F else 0xBF))
            ∧ (0x80 ≤ c2 ∧ c2 ≤ 0xBF) then
          (utf8Decode rest2).map
            (fun t => ((b - 0xE0) * 0x1000 + (c1 - 0x80) * 0x40 + (c2 - 0x80)) :: t)
        else none
      | _ => none
    else if 0xF0 ≤ b ∧ b ≤ 0xF4 then
      match rest with
      | c1 :: c2 :: c3 :: rest2 =>
        if ((if b = 0xF0 then 0x90 else 0x80) ≤ c1 ∧ c1 ≤ (if b = 0xF4 then 0x8F else 0xBF))
            ∧ (0x80 ≤ c2 ∧ c2 ≤ 0xBF) ∧ (0x80 ≤ c3 ∧ c3 ≤ 0xBF) then
          (utf8Decode rest2).map
            (fun t => ((b - 0xF0) * 0x40000 + (c1 - 0x80) * 0x1000
                        + (c2 - 0x80) * 0x40 + (c3 - 0x80)) :: t)
        else none
      | _ => none
    else none

/-- pyDigitRanges: the inclusive code-point ranges on which Python's
`str.isdigit` is true (characters of Numeric_Type Decimal or Digit),
taken from CPython 3.11's unicodedata over the whole code space.  It
covers the 660 decimal digits of every script plus the 128 non-decimal
digit characters such as superscripts, subscripts and circled digits. -/
def pyDigitRanges : List (Nat × Nat) :=
  [(48, 57), (178, 179), (185, 185), (1632, 1641), (1776, 1785),
   (1984, 1993), (2406, 2415), (2534, 2543), (2662, 2671), (2790, 2799),
   (2918, 2927), (3046, 3055), (3174, 3183), (3302, 3311), (3430, 3439),
   (3558, 3567), (3664, 3673), (3792, 3801), (3872, 3881), (4160, 4169),
   (4240, 4249), (4969, 4977), (6112, 6121), (6160, 6169), (6470, 6479),
   (6608, 6618), (6784, 6793), (6800, 6809), (6992, 7001), (7088, 7097),
   (7232, 7241), (7248, 7257), (8304, 8304), (8308, 8313), (8320, 8329),
   (9312, 9320), (9332, 9340), (9352, 9360), (9450, 9450), (9461, 9469),
   (9471, 9471), (10102, 10110), (10112, 10120), (10122, 10130), (42528, 42537),
   (43216, 43225), (43264, 43273), (43472, 43481), (43504, 43513), (43600, 43609),
   (44016, 44025), (65296, 65305), (66720, 66729), (68160, 68163), (68912, 68921),
   (69216, 69224), (69714, 69722), (69734, 69743), (69872, 69881), (69942, 69951),
   (70096, 70105), (70384, 70393), (70736, 70745), (70864, 70873), (71248, 71257),
   (71360, 71369), (71472, 71481), (71904, 71913), (72016, 72025), (72784, 72793),
   (73040, 73049), (73120, 73129), (92768, 92777), (92864, 92873), (93008, 93017),
   (120782, 120831), (123200, 123209), (123632, 123641), (125264, 125273),
   (127232, 127242), (130032, 130041)]

/-- isPyDigit models `str.isdigit` on one code point. -/
def isPyDigit (cp : Nat) : Bool :=
  pyDigitRanges.any (fun p => decide (p.1 ≤ cp) && decide (cp ≤ p.2))

/-- pyDecimalRanges: the inclusive code-point ranges of the decimal
digits (Numeric_Type=Decimal, category Nd), from the same unicodedata;
every range is a full run 0..9 (or a run of such runs, for the
mathematical digits), so the digit value of a member is its offset from
the range start.  These are exactly the digit characters `int()`
accepts. -/
def pyDecimalRanges : List (Nat × Nat) :=
  [(48, 57), (1632, 1641), (1776, 1785), (1984, 1993), (2406, 2415),
   (2534, 2543), (2662, 2671), (2790, 2799), (2918, 2927), (3046, 3055),
   (3174, 3183), (3302, 3311), (3430, 3439), (3558, 3567), (3664, 3673),
   (3792, 3801), (3872, 3881), (4160, 4169), (4240, 4249), (6112, 6121),
   (6160, 6169), (6470, 6479), (6608, 6617), (6784, 6793), (6800, 6809),
   (6992, 7001), (7088, 7097), (7232, 7241), (7248, 7257), (42528, 42537),
   (43216, 43225), (43264, 43273), (43472, 43481), (43504, 43513), (43600, 43609),
   (44016, 44025), (65296, 65305), (66720, 66729), (68912, 68921), (69734, 69743),
   (69872, 69881), (69942, 69951), (70096, 70105), (70384, 70393), (70736, 70745),
   (70864, 70873), (71248, 71257), (71360, 71369), (71472, 71481), (71904, 71913),
   (72016, 72025), (72784, 72793), (73040, 73049), (73120, 73129), (92768, 92777),
   (92864, 92873), (93008, 93017), (120782, 120791), (120792, 120801), (120802, 120811),
   (120812, 120821), (120822, 120831), (123200, 123209), (123632, 123641),
   (125264, 125273), (130032, 130041)]

/-- pyDecimalVal: the decimal value of a code point, none when the
character is not a decimal digit (e.g. a superscript, which is a digit
per isdigit but has no decimal value). -/
def pyDecimalVal (cp : Nat) : Option Nat :=
  (pyDecimalRanges.find? (fun p => decide (p.1 ≤ cp) && decide (cp ≤ p.2))).map
    (fun p => cp - p.1)

/-- extractDigits models `"".join(ch for ch in text if ch.isdigit())`:
the digit characters of the text, in order, from anywhere in it. -/
def extractDigits (text : List Nat) : List Nat := text.filter isPyDigit

/-- pyIntOfDigits models `int(digits)` on the non-empty string of digit
characters the source collects: it reads the base-10 value (most
significant first, any script, leading zeros allowed) exactly when every
character is a decimal digit, and is none — a ValueError in Python —
when some collected digit character is not decimal. -/
def pyIntOfDigits (ds : List Nat) : Option Nat :=
  ds.foldl
    (fun acc d =>
      match acc, pyDecimalVal d with
      | some a, some v => some (a * 10 + v)
      | _, _ => none)
    (some 0)

/-- default_partitioner from partitioner.py: empty availability degrades
to partition 0; an absent key routes to the first available partition;
otherwise the key is digested and the digest indexes the available list
modulo its length.  The digest step
`int.from_bytes(hashlib.sha256(key).digest()[:8], byteorder="big")` is a
fixed pure function of the key bytes and is passed in as the parameter
`digest`: no claim below depends on its concrete values, only on its
being a function. -/
def default_partitioner (digest : List Nat → Nat) (key : Option (List Nat))
    (all_partitions : List Int) (available_partitions : List Int) : Int :=
  if available_partitions.isEmpty then 0
  else
    match key with
    | none => available_partitions.headD 0
    | some k => available_partitions.getD (digest k % available_partitions.length) 0

/-- partition_by_customer_id from partitioner.py: decode the key as
UTF-8, collect its digit characters (per str.isdigit), and when any are
found convert them with int() and use the value to index
available_partitions directly (after the same empty-availability
check); on a None key, a failed decode, no digits, or an int()
ValueError (a collected digit that is not decimal), defer to
default_partitioner.  The try/except around the body is modelled by the
none cases of utf8Decode and pyIntOfDigits. -/
def partition_by_customer_id (digest : List Nat → Nat) (key : Option (List Nat))
    (all_partitions : List Int) (available_partitions : List Int) : Int :=
  match key with
  | none => default_partitioner digest none all_partitions available_partitions
  | some k =>
    match utf8Decode k with
    | none => default_partitioner digest (some k) all_partitions available_partitions
    | some text =>
      let digits := extractDigits text
      if digits.isEmpty then
        default_partitioner digest (some k) all_partitions available_partitions
      else
        match pyIntOfDigits digits with
        | some cid =>
            if available_partitions.isEmpty then 0
            else available_partitions.getD (cid % available_partitions.length) 0
        | none =>
            default_partitioner digest (some k) all_partitions available_partitions

/-!
Concrete fixtures used by witnesses and counterexamples below: the
spec's end-to-end scenario (order 1, CREATED/PAID/SHIPPED at 1/2/3),
its tie-break scenario (order 9, two events at the same timestamp), its
no-self-transition scenario (order 7), an accepted-update scenario
(order 5), the key b"customer:123", and the key [0x32, 0xC2, 0xB2] —
the UTF-8 bytes of the two-character text DIGIT TWO then SUPERSCRIPT
TWO, whose second character is a digit per isdigit but has no decimal
value.
-/

def ev1 : EventRecord := ⟨"e1", 1, 42, "CREATED", 1⟩

def ev2 : EventRecord := ⟨"e2", 1, 42, "PAID", 2⟩

def ev3 : EventRecord := ⟨"e3", 1, 42, "SHIPPED", 3⟩

def evA : EventRecord := ⟨"a", 9, 5, "PAID", 5⟩

def evB : EventRecord := ⟨"b", 9, 5, "SHIPPED", 5⟩

def emptyStore : Store := fun _ => none

def rowPaid : OrderStatusRow := ⟨7, 42, some "CREATED", some "PAID", some 10⟩

def evSelf : EventRecord := ⟨"s", 7, 42, "PAID", 15⟩

def rowFresh : OrderStatusRow := ⟨5, 1, none, some "PAID", some 10⟩

def evShip : EventRecord := ⟨"y", 5, 2, "SHIPPED", 20⟩

def stW : Store := fun oid => if oid = 7 then some rowPaid else none

def kBytes : List Nat := [99, 117, 115, 116, 111, 109, 101, 114, 58, 49, 50, 51]

def d0 : List Nat → Nat := fun _ => 0

/-- mergeOne on an absent row is the WHEN NOT MATCHED insert (by
computation). -/
theorem mergeOne_absent (e : EventRecord) :
    mergeOne none e = some ⟨e.order_id, e.customer_id, none, some e.new_status,
      some e.status_ts⟩ := rfl

/-- mergeOne on a present row is the guarded WHEN MATCHED update (by
computation). -/
theorem mergeOne_matched (r : OrderStatusRow) (e : EventRecord) :
    mergeOne (some r) e =
      if tsNewer r.last_update_ts e.status_ts && statusDiffers r.current_status e.new_status then
        some { r with previous_status := r.current_status,
                      current_status := some e.new_status,
                      last_update_ts := some e.status_ts,
                      customer_id := e.customer_id }
      else some r := rfl

/-- mergeOne applied twice with the same event is the same as once: an
accepted update or an insert leaves LAST_UPDATE_TS equal to the event's
timestamp, so the strict timestamp guard rejects the second application;
a rejected event is rejected again for the same reason as before. -/
theorem mergeOne_idem (t : Option OrderStatusRow) (e : EventRecord) :
    mergeOne (mergeOne t e) e = mergeOne t e := by
  cases t with
  | none =>
      rw [mergeOne_absent, mergeOne_matched]
      simp [tsNewer]
  | some r =>
      rw [mergeOne_matched r e]
      split
      · rw [mergeOne_matched]
        simp [tsNewer]
      · rw [mergeOne_matched]
        split
        · rename_i hneg hpos
          exact absurd hpos hneg
        · rfl

/-- mergeOne never decreases a non-NULL LAST_UPDATE_TS: an accepted
update requires a strictly greater event timestamp. -/
theorem mergeOne_mono (t : Option OrderStatusRow) (e : EventRecord) (l : Int)
    (h : (t.bind fun r => r.last_update_ts) = some l) :
    ∃ l2, ((mergeOne t e).bind fun r => r.last_update_ts) = some l2 ∧ l ≤ l2 := by
  cases t with
  | none => simp at h
  | some r =>
      simp only [Option.some_bind] at h
      rw [mergeOne_matched r e]
      split
      · rename_i hg
        refine ⟨e.status_ts, by simp, ?_⟩
        rw [Bool.and_eq_true] at hg
        have h1 : tsNewer r.last_update_ts e.status_ts = true := hg.1
        rw [h, tsNewer] at h1
        exact le_of_lt (of_decide_eq_true h1)
      · exact ⟨l, by simp [h], le_refl l⟩

/-- runPass never decreases a non-NULL LAST_UPDATE_TS of any row. -/
theorem runPass_mono (W : List EventRecord) (st : Store) (oid : Int) (l : Int)
    (h : ((st oid).bind fun r => r.last_update_ts) = some l) :
    ∃ l2, ((runPass W st oid).bind fun r => r.last_update_ts) = some l2 ∧ l ≤ l2 := by
  unfold runPass
  cases hs : selectLatest W oid with
  | none => exact ⟨l, h, le_refl l⟩
  | some e => exact mergeOne_mono (st oid) e l h

/-- selStep either replaces the accumulator by the current row (which
then dominates the old accumulator) or keeps the accumulator (which
then dominates the row), whenever the row belongs to the order. -/
theorem selStep_cases (oid : Int) (acc : Option EventRecord) (x : EventRecord)
    (hx : x.order_id = oid) :
    (selStep oid acc x = some x ∧ ∀ a, acc = some a → a.status_ts ≤ x.status_ts)
    ∨ (∃ a, acc = some a ∧ selStep oid acc x = some a ∧ x.status_ts ≤ a.status_ts) := by
  cases acc with
  | none => exact Or.inl ⟨by simp [selStep, hx], fun a ha => nomatch ha⟩
  | some a =>
      by_cases hlt : a.status_ts < x.status_ts
      · refine Or.inl ⟨by simp [selStep, hx, hlt], ?_⟩
        intro a0 ha0
        injection ha0 with h0
        subst h0
        exact le_of_lt hlt
      · exact Or.inr ⟨a, rfl, by simp [selStep, hx, hlt], le_of_not_lt hlt⟩

/-- Soundness invariant of the dedup fold: a produced winner either is
the starting accumulator or lies in the window with the right order id;
it dominates every window row of that order and the accumulator. -/
theorem sel_fold_sound (oid : Int) :
    ∀ (W : List EventRecord) (acc : Option EventRecord) (e : EventRecord),
      W.foldl (selStep oid) acc = some e →
      (acc = some e ∨ (e ∈ W ∧ e.order_id = oid))
      ∧ (∀ e2 ∈ W, e2.order_id = oid → e2.status_ts ≤ e.status_ts)
      ∧ (∀ a, acc = some a → a.status_ts ≤ e.status_ts)
  | [], acc, e, h => by
      simp only [List.foldl_nil] at h
      refine ⟨Or.inl h, ?_, ?_⟩
      · intro e2 he2 _
        exact absurd he2 (List.not_mem_nil e2)
      · intro a ha
        rw [h] at ha
        injection ha with h0
        subst h0
        exact le_refl _
  | x :: W, acc, e, h => by
      rw [List.foldl_cons] at h
      obtain ⟨h1, h2, h3⟩ := sel_fold_sound oid W (selStep oid acc x) e h
      by_cases hx : x.order_id = oid
      · rcases selStep_cases oid acc x hx with ⟨hs, hb⟩ | ⟨a, hacc, hs, hb⟩
        · have hxle : x.status_ts ≤ e.status_ts := h3 x hs
          refine ⟨?_, ?_, ?_⟩
          · rcases h1 with h1 | ⟨hm, ho⟩
            · rw [hs] at h1
              injection h1 with h0
              subst h0
              exact Or.inr ⟨List.mem_cons_self x W, hx⟩
            · exact Or.inr ⟨List.mem_cons_of_mem x hm, ho⟩
          · intro e2 he2 ho2
            rcases List.mem_cons.mp he2 with rfl | hm2
            · exact hxle
            · exact h2 e2 hm2 ho2
          · intro a ha
            exact le_trans (hb a ha) hxle
        · have hale : a.status_ts ≤ e.status_ts := h3 a hs
          refine ⟨?_, ?_, ?_⟩
          · rcases h1 with h1 | ⟨hm, ho⟩
            · rw [hs] at h1
              injection h1 with h0
              subst h0
              exact Or.inl hacc
            · exact Or.inr ⟨List.mem_cons_of_mem x hm, ho⟩
          · intro e2 he2 ho2
            rcases List.mem_cons.mp he2 with rfl | hm2
            · exact le_trans hb hale
            · exact h2 e2 hm2 ho2
          · intro a0 ha0
            rw [hacc] at ha0
            injection ha0 with h0
            subst h0
            exact hale
      · have hs : selStep oid acc x = acc := by simp [selStep, hx]
        rw [hs] at h1 h3
        refine ⟨?_, ?_, ?_⟩
        · rcases h1 with h1 | ⟨hm, ho⟩
          · exact Or.inl h1
          · exact Or.inr ⟨List.mem_cons_of_mem x hm, ho⟩
        · intro e2 he2 ho2
          rcases List.mem_cons.mp he2 with rfl | hm2
          · exact absurd ho2 hx
          · exact h2 e2 hm2 ho2
        · exact h3

/-- The dedup fold keeps an accumulator that dominates every row of the
order in the remaining window. -/
theorem sel_fold_keep (oid : Int) :
    ∀ (W : List EventRecord) (e : EventRecord),
      (∀ e2 ∈ W, e2.order_id = oid → e2.status_ts ≤ e.status_ts) →
      W.foldl (selStep oid) (some e) = some e
  | [], _, _ => by simp
  | x :: W, e, h => by
      rw [List.foldl_cons]
      have hstep : selStep oid (some e) x = some e := by
        by_cases hx : x.order_id = oid
        · have hle : x.status_ts ≤ e.status_ts := h x (List.mem_cons_self x W) hx
          simp [selStep, hx, not_lt.mpr hle]
        · simp [selStep, hx]
      rw [hstep]
      exact sel_fold_keep oid W e (fun e2 he2 => h e2 (List.mem_cons_of_mem x he2))

/-- selStep preserves a strict upper bound on the accumulator timestamp,
provided the new row (when it belongs to the order) also respects it. -/
theorem selStep_ts_bound (oid : Int) (acc : Option EventRecord) (x a : EventRecord) (b : Int)
    (hacc : ∀ a0, acc = some a0 → a0.status_ts < b)
    (hx : x.order_id = oid → x.status_ts < b)
    (ha : selStep oid acc x = some a) : a.status_ts < b := by
  by_cases ho : x.order_id = oid
  · cases acc with
    | none =>
        simp only [selStep, if_pos ho, Option.some.injEq] at ha
        exact ha ▸ hx ho
    | some a0 =>
        by_cases hlt : a0.status_ts < x.status_ts
        · simp only [selStep, if_pos ho, if_pos hlt, Option.some.injEq] at ha
          exact ha ▸ hx ho
        · simp only [selStep, if_pos ho, if_neg hlt, Option.some.injEq] at ha
          exact ha ▸ hacc a0 rfl
  · simp only [selStep, if_neg ho] at ha
    exact hacc a ha

/-- When one event of the order has a strictly greater timestamp than
every other event of that order in the window, the dedup fold selects
it, from any accumulator it strictly dominates. -/
theorem sel_fold_unique (oid : Int) :
    ∀ (W : List EventRecord) (acc : Option EventRecord) (e : EventRecord),
      e ∈ W → e.order_id = oid →
      (∀ e2 ∈ W, e2.order_id = oid → e2 ≠ e → e2.status_ts < e.status_ts) →
      (∀ a, acc = some a → a.status_ts < e.status_ts) →
      W.foldl (selStep oid) acc = some e
  | [], _, e, hmem, _, _, _ => absurd hmem (List.not_mem_nil e)
  | x :: W, acc, e, hmem, hoid, hmax, hacc => by
      rw [List.foldl_cons]
      by_cases hxe : x = e
      · subst hxe
        have hstep : selStep oid acc x = some x := by
          cases acc with
          | none => simp [selStep, hoid]
          | some a => simp [selStep, hoid, hacc a rfl]
        rw [hstep]
        refine sel_fold_keep oid W x ?_
        intro e2 he2 ho2
        by_cases h2 : e2 = x
        · exact h2 ▸ le_refl _
        · exact le_of_lt (hmax e2 (List.mem_cons_of_mem x he2) ho2 h2)
      · have hmem2 : e ∈ W := by
          rcases List.mem_cons.mp hmem with h | h
          · exact absurd h.symm hxe
          · exact h
        refine sel_fold_unique oid W (selStep oid acc x) e hmem2 hoid
          (fun e2 he2 ho2 hne => hmax e2 (List.mem_cons_of_mem x he2) ho2 hne) ?_
        intro a ha
        exact selStep_ts_bound oid acc x a e.status_ts hacc
          (fun ho => hmax x (List.mem_cons_self x W) ho hxe) ha

/-- Whatever selectLatest returns is a legitimate latest candidate of
its order in the window. -/
theorem selectLatest_sound (W : List EventRecord) (oid : Int) (e : EventRecord)
    (h : selectLatest W oid = some e) : isLatestCandidate W oid e := by
  obtain ⟨h1, h2, _⟩ := sel_fold_sound oid W none e h
  rcases h1 with h1 | ⟨hm, ho⟩
  · exact nomatch h1
  · exact ⟨hm, ho, h2⟩

/-- When the latest timestamp of an order is uniquely attained,
selectLatest returns that event, whatever the presentation order. -/
theorem selectLatest_eq_of_unique (W : List EventRecord) (oid : Int) (e : EventRecord)
    (hmem : e ∈ W) (hoid : e.order_id = oid)
    (hmax : ∀ e2 ∈ W, e2.order_id = oid → e2 ≠ e → e2.status_ts < e.status_ts) :
    selectLatest W oid = some e :=
  sel_fold_unique oid W none e hmem hoid hmax (fun _ ha => nomatch ha)

/-!
Claim theorems for the reducer.
-/

/-- C1: the reducer is idempotent — for every event window W and every
starting state store, applying the reducer pass (dedup-to-latest per
order id, then conditional merge) to W once and then again to the same W
produces exactly the same OrderStatusState store as applying it once. -/
theorem reducer_idempotent (W : List EventRecord) (st : Store) :
    runPass W (runPass W st) = runPass W st := by
  funext oid
  simp only [runPass]
  cases hs : selectLatest W oid with
  | none => rfl
  | some e => exact mergeOne_idem (st oid) e

/-- C2: monotonicity — for every order id and every sequence of reducer
passes over arbitrary event windows, a stored non-NULL LAST_UPDATE_TS
never decreases: no accepted update writes a smaller timestamp than the
one stored before it. -/
theorem last_update_ts_monotone (Ws : List (List EventRecord)) (st : Store) (oid : Int) (l : Int)
    (h : ((st oid).bind fun r => r.last_update_ts) = some l) :
    ∃ l2, ((runPasses Ws st oid).bind fun r => r.last_update_ts) = some l2 ∧ l ≤ l2 := by
  induction Ws generalizing st l with
  | nil => exact ⟨l, h, le_refl l⟩
  | cons W Ws ih =>
      obtain ⟨l1, h1, hle1⟩ := runPass_mono W st oid l h
      obtain ⟨l2, h2, hle2⟩ := ih (runPass W st) l1 h1
      exact ⟨l2, h2, le_trans hle1 hle2⟩

/-- C2 witness: the monotonicity theorem at a concrete store holding
order 7 at timestamp 10, followed by two further passes. -/
theorem last_update_ts_monotone_witness :
    ((stW 7).bind fun r => r.last_update_ts) = some 10
    ∧ ∃ l2, ((runPasses [[evSelf], [ev3]] stW 7).bind fun r => r.last_update_ts) = some l2
        ∧ 10 ≤ l2 :=
  ⟨rfl, last_update_ts_monotone [[evSelf], [ev3]] stW 7 10 rfl⟩

/-- C3 counterexample: the spec's end-to-end scenario — CREATED@1,
PAID@2, SHIPPED@3 for order 1 fed to the reducer in one pass over a
store with no row for order 1 — produces PREVIOUS_STATUS = NULL, not
PAID: dedup-to-latest discards the runner-up event before the merge ever
sees it, and the insert branch writes NULL. -/
theorem single_pass_runner_up_dropped :
    ((runPass [ev1, ev2, ev3] emptyStore 1).map fun r =>
        (r.previous_status, r.current_status, r.last_update_ts))
      = some (none, some "SHIPPED", some 3)
    ∧ some ((none : Option String), some "SHIPPED", some (3 : Int))
        ≠ some (some "PAID", some "SHIPPED", some (3 : Int)) := by
  constructor
  · rfl
  · decide

/-- C3 amended: feeding several events for one order to the reducer in
one pass over a store with no row for that order yields a row whose
CURRENT_STATUS is the latest event's status and whose LAST_UPDATE_TS is
that event's timestamp, with the event's customer id — but
PREVIOUS_STATUS is NULL, the runner-up status being discarded by
dedup-to-latest; this is independent of the delivery order of the events
(stated for a window whose latest timestamp for the order is uniquely
attained, as in the spec's scenarios). -/
theorem single_pass_fresh_order (W : List EventRecord) (oid : Int) (e : EventRecord) (st : Store)
    (hmem : e ∈ W) (hoid : e.order_id = oid)
    (hmax : ∀ e2 ∈ W, e2.order_id = oid → e2 ≠ e → e2.status_ts < e.status_ts)
    (habs : st oid = none) :
    runPass W st oid = some ⟨e.order_id, e.customer_id, none, some e.new_status,
      some e.status_ts⟩ := by
  have hsel : selectLatest W oid = some e := selectLatest_eq_of_unique W oid e hmem hoid hmax
  simp only [runPass, hsel, habs, mergeOne_absent]

/-- C3 amended witness: the amended statement at the spec's concrete
scenario. -/
theorem single_pass_fresh_order_witness :
    (ev3 ∈ [ev1, ev2, ev3] ∧ ev3.order_id = 1
      ∧ (∀ e2 ∈ [ev1, ev2, ev3], e2.order_id = 1 → e2 ≠ ev3 → e2.status_ts < ev3.status_ts)
      ∧ emptyStore 1 = none)
    ∧ runPass [ev1, ev2, ev3] emptyStore 1
        = some ⟨ev3.order_id, ev3.customer_id, none, some ev3.new_status, some ev3.status_ts⟩ :=
  ⟨⟨by decide, by decide, by decide, rfl⟩,
   single_pass_fresh_order [ev1, ev2, ev3] 1 ev3 emptyStore (by decide) (by decide)
     (by decide) rfl⟩

/-- C4: no self-transition pollution — for every stored row and every
candidate event whose NEW_STATUS equals the stored CURRENT_STATUS, the
merge leaves the row completely unchanged (PREVIOUS_STATUS included),
with no condition at all on the candidate's timestamp: in particular
even when STATUS_TS is strictly greater than the stored
LAST_UPDATE_TS. -/
theorem no_self_transition (r : OrderStatusRow) (e : EventRecord) (c : String)
    (hc : r.current_status = some c) (he : e.new_status = c) :
    mergeOne (some r) e = some r := by
  rw [mergeOne_matched]
  have hst : statusDiffers r.current_status e.new_status = false := by
    rw [hc, he, statusDiffers]
    simp
  rw [hst]
  simp

/-- C4 witness: the spec's scenario — state {current=PAID,
previous=CREATED, last_update_ts=10}, event {status=PAID, ts=15} — is a
no-op. -/
theorem no_self_transition_witness :
    (rowPaid.current_status = some "PAID" ∧ evSelf.new_status = "PAID"
      ∧ rowPaid.last_update_ts = some 10 ∧ evSelf.status_ts = 15
      ∧ rowPaid.previous_status = some "CREATED")
    ∧ mergeOne (some rowPaid) evSelf = some rowPaid :=
  ⟨⟨rfl, rfl, rfl, rfl, rfl⟩, no_self_transition rowPaid evSelf "PAID" rfl rfl⟩

/-- C5: conditional-merge postcondition — for a present row with stored
timestamp l and status c: a candidate not strictly newer is a no-op; a
strictly newer candidate with a different status moves the old
CURRENT_STATUS into PREVIOUS_STATUS and takes the event's status,
timestamp and customer id; for an absent row the merge inserts a row
with PREVIOUS_STATUS = NULL and the candidate as initial
CURRENT_STATUS. -/
theorem conditional_merge_postcondition (r : OrderStatusRow) (e : EventRecord) (l : Int)
    (c : String) (hl : r.last_update_ts = some l) (hc : r.current_status = some c) :
    (¬ l < e.status_ts → mergeOne (some r) e = some r)
    ∧ (l < e.status_ts → e.new_status ≠ c →
        mergeOne (some r) e = some { r with previous_status := some c,
                                            current_status := some e.new_status,
                                            last_update_ts := some e.status_ts,
                                            customer_id := e.customer_id })
    ∧ mergeOne none e = some ⟨e.order_id, e.customer_id, none, some e.new_status,
        some e.status_ts⟩ := by
  refine ⟨?_, ?_, mergeOne_absent e⟩
  · intro h
    rw [mergeOne_matched]
    have ht : tsNewer r.last_update_ts e.status_ts = false := by
      rw [hl, tsNewer]
      simp [h]
    rw [ht]
    simp
  · intro h1 h2
    rw [mergeOne_matched]
    have ht : tsNewer r.last_update_ts e.status_ts = true := by
      rw [hl, tsNewer]
      simp [h1]
    have hst : statusDiffers r.current_status e.new_status = true := by
      rw [hc, statusDiffers]
      simp [Ne.symm h2]
    rw [ht, hst]
    simp [hc]

/-- C5 witness: the postcondition at a concrete accepted update — row
{order=5, customer=1, previous=NULL, current=PAID, ts=10} receiving
{SHIPPED, ts=20, customer=2}. -/
theorem conditional_merge_postcondition_witness :
    (rowFresh.last_update_ts = some 10 ∧ rowFresh.current_status = some "PAID")
    ∧ ((¬ (10 : Int) < evShip.status_ts → mergeOne (some rowFresh) evShip = some rowFresh)
      ∧ ((10 : Int) < evShip.status_ts → evShip.new_status ≠ "PAID" →
          mergeOne (some rowFresh) evShip
            = some { rowFresh with previous_status := some "PAID",
                                   current_status := some evShip.new_status,
                                   last_update_ts := some evShip.status_ts,
                                   customer_id := evShip.customer_id })
      ∧ mergeOne none evShip = some ⟨evShip.order_id, evShip.customer_id, none,
          some evShip.new_status, some evShip.status_ts⟩) :=
  ⟨⟨rfl, rfl⟩, conditional_merge_postcondition rowFresh evShip 10 "PAID" rfl rfl⟩

/-- C6 counterexample: two events for order 9 with identical STATUS_TS
and different EVENT_ID are both legitimate winners of the
window-function dedup, and the selection flips when the same window rows
are presented in the other order (a permutation of the same window): the
code's tie-break is row-order dependent, not deterministic. -/
theorem tie_break_not_deterministic :
    isLatestCandidate [evA, evB] 9 evA
    ∧ isLatestCandidate [evA, evB] 9 evB
    ∧ evA ≠ evB
    ∧ List.Perm [evA, evB] [evB, evA]
    ∧ selectLatest [evA, evB] 9 ≠ selectLatest [evB, evA] 9 := by
  refine ⟨by decide, by decide, by decide, List.Perm.swap evB evA [], by decide⟩

/-- C6 amended: the dedup step always selects an event of the order with
maximal STATUS_TS (a latest candidate), and when the maximum is uniquely
attained the winner is determined by the window contents alone; on ties,
however, the winner depends on the implementation-defined row
presentation order, not on an EVENT_ID lexical tie-break. -/
theorem dedup_selects_latest_candidate (W : List EventRecord) (oid : Int) (e : EventRecord) :
    (selectLatest W oid = some e → isLatestCandidate W oid e)
    ∧ ((e ∈ W ∧ e.order_id = oid
        ∧ ∀ e2 ∈ W, e2.order_id = oid → e2 ≠ e → e2.status_ts < e.status_ts) →
      selectLatest W oid = some e) :=
  ⟨selectLatest_sound W oid e,
   fun h => selectLatest_eq_of_unique W oid e h.1 h.2.1 h.2.2⟩

/-- C6 amended witness: the amended statement at the tie window of order
9. -/
theorem dedup_selects_latest_candidate_witness :
    selectLatest [evA, evB] 9 = some evA ∧ isLatestCandidate [evA, evB] 9 evA :=
  ⟨by decide, (dedup_selects_latest_candidate [evA, evB] 9 evA).1 (by decide)⟩

/-!
Helper lemmas for the router, then claim theorems C7 to C10.
-/

/-- An index below the length makes getD return a member of the list. -/
theorem getD_mem_of_lt : ∀ (l : List Int) (i : Nat) (d : Int), i < l.length → l.getD i d ∈ l
  | [], _, _, h => absurd h (by simp)
  | a :: l, 0, d, _ => by simp
  | a :: l, i + 1, d, h => by
      simp only [List.getD_cons_succ]
      exact List.mem_cons_of_mem a (getD_mem_of_lt l i d (by simpa using h))

/-- C8: empty-partition fallback — with an empty available_partitions
sequence both routers return partition 0, for every key (present or
absent) and every all_partitions set; both embeddings are total
functions, reflecting that the source raises nothing on this path. -/
theorem empty_availability_partition_zero (digest : List Nat → Nat) (key : Option (List Nat))
    (all_p : List Int) :
    default_partitioner digest key all_p [] = 0
    ∧ partition_by_customer_id digest key all_p [] = 0 := by
  have hd : default_partitioner digest key all_p [] = 0 := by
    simp [default_partitioner]
  refine ⟨hd, ?_⟩
  cases key with
  | none =>
      simp only [partition_by_customer_id]
      exact hd
  | some k =>
      simp only [partition_by_customer_id]
      cases hdec : utf8Decode k with
      | none => exact hd
      | some text =>
          cases hdig : (extractDigits text).isEmpty with
          | true => simp [hdig, hd]
          | false =>
              cases hint : pyIntOfDigits (extractDigits text) with
              | some cid => simp [hdig, hint]
              | none => simp [hdig, hint, hd]

/-- C9: routing determinism — both routers are pure functions of their
arguments: repeated calls with identical arguments agree, and byte-equal
keys route to the same partition.  (The embedding is a function by
construction, mirroring that the source consults no clock, randomness or
mutable state, and that the SHA-256 digest is a fixed function of the
key bytes.) -/
theorem routing_deterministic (digest : List Nat → Nat) (k1 k2 : Option (List Nat))
    (all_p avail : List Int) (h : k1 = k2) :
    (default_partitioner digest k1 all_p avail = default_partitioner digest k1 all_p avail
      ∧ partition_by_customer_id digest k1 all_p avail
          = partition_by_customer_id digest k1 all_p avail)
    ∧ (default_partitioner digest k1 all_p avail = default_partitioner digest k2 all_p avail
      ∧ partition_by_customer_id digest k1 all_p avail
          = partition_by_customer_id digest k2 all_p avail) := by
  subst h
  exact ⟨⟨rfl, rfl⟩, rfl, rfl⟩

/-- C9 witness: determinism at the concrete key b"customer:123". -/
theorem routing_deterministic_witness :
    (some kBytes = some kBytes)
    ∧ ((default_partitioner d0 (some kBytes) [0] [10]
          = default_partitioner d0 (some kBytes) [0] [10]
      ∧ partition_by_customer_id d0 (some kBytes) [0] [10]
          = partition_by_customer_id d0 (some kBytes) [0] [10])
    ∧ (default_partitioner d0 (some kBytes) [0] [10]
          = default_partitioner d0 (some kBytes) [0] [10]
      ∧ partition_by_customer_id d0 (some kBytes) [0] [10]
          = partition_by_customer_id d0 (some kBytes) [0] [10])) :=
  ⟨rfl, routing_deterministic d0 (some kBytes) (some kBytes) [0] [10] rfl⟩

/-- C10: routing result membership — with a non-empty
available_partitions list, both routers return an element of that list:
every computed index is a value taken modulo the list length (hence in
range) or position 0 of a non-empty list, so no out-of-range access is
possible. -/
theorem routing_result_membership (digest : List Nat → Nat) (key : Option (List Nat))
    (all_p avail : List Int) (h : avail ≠ []) :
    default_partitioner digest key all_p avail ∈ avail
    ∧ partition_by_customer_id digest key all_p avail ∈ avail := by
  have hlen : 0 < avail.length := List.length_pos.mpr h
  have hemp : avail.isEmpty = false := by
    cases avail with
    | nil => exact absurd rfl h
    | cons a l => rfl
  have hd : default_partitioner digest key all_p avail ∈ avail := by
    simp only [default_partitioner, hemp]
    cases key with
    | none =>
        cases avail with
        | nil => exact absurd rfl h
        | cons a l => simp
    | some k =>
        simp only []
        exact getD_mem_of_lt avail _ 0 (Nat.mod_lt _ hlen)
  refine ⟨hd, ?_⟩
  cases key with
  | none =>
      simp only [partition_by_customer_id]
      exact hd
  | some k =>
      simp only [partition_by_customer_id]
      cases hdec : utf8Decode k with
      | none => exact hd
      | some text =>
          cases hdig : (extractDigits text).isEmpty with
          | true =>
              simp only [hdig]
              simpa using hd
          | false =>
              cases hint : pyIntOfDigits (extractDigits text) with
              | some cid =>
                  simp only [hdig, hint, hemp]
                  simpa using getD_mem_of_lt avail (cid % avail.length) 0 (Nat.mod_lt _ hlen)
              | none =>
                  simp only [hdig, hint]
                  simpa using hd

/-- C10 witness: membership at the concrete key b"customer:123" and
three available partitions. -/
theorem routing_result_membership_witness :
    (([10, 20, 30] : List Int) ≠ [])
    ∧ default_partitioner d0 (some kBytes) [0] [10, 20, 30] ∈ ([10, 20, 30] : List Int)
    ∧ partition_by_customer_id d0 (some kBytes) [0] [10, 20, 30] ∈ ([10, 20, 30] : List Int) :=
  ⟨by decide,
   (routing_result_membership d0 (some kBytes) [0] [10, 20, 30] (by decide)).1,
   (routing_result_membership d0 (some kBytes) [0] [10, 20, 30] (by decide)).2⟩
